import Mathlib

/-!
Verification of the MedSynth shared-task evaluation pipeline
(`evaluate_dialogue_to_note.py`).

The CLI script's core `evaluate_submission` is embedded from the source.
The scoring engine (`bench_utils.automatic_metrics.MetricsComputer`) is not
part of the repository snapshot, so its scorers are modelled from the
specification (spec sections 4.1 to 4.5); each such definition says so in its
doc comment.

CSV cells may be missing (pandas NaN); a missing cell is an `Option.none`.
Ids are modelled as naturals.
-/

set_option linter.unusedVariables false

/-- Row of the submission CSV: columns `id, generated_note`
(`load_submission`). -/
structure SubRow where
  id : Nat
  generated_note : Option String
deriving DecidableEq, Repr

/-- Row of the ground-truth CSV: columns `id, note, dialogue`
(`load_ground_truth`). -/
structure GtRow where
  id : Nat
  note : Option String
  dialogue : Option String
deriving DecidableEq, Repr

/-- Row of `ground_truth_df.merge(submission_df, on='id', how='inner')`. -/
structure MergedRow where
  id : Nat
  note : Option String
  dialogue : Option String
  generated_note : Option String
deriving DecidableEq, Repr

/-- Pandas inner merge `ground_truth_df.merge(submission_df, on='id',
how='inner')` (line 59): one output row per pair of a ground-truth row and a
submission row with equal `id`, keeping the order of the left (ground-truth)
keys. -/
def mergeInner (gt : List GtRow) (sub : List SubRow) : List MergedRow :=
  gt.flatMap fun g =>
    (sub.filter fun s => s.id == g.id).map fun s =>
      { id := g.id, note := g.note, dialogue := g.dialogue,
        generated_note := s.generated_note }

/-- Line 70: `predictions = merged['generated_note'].fillna('').astype(str).tolist()`.
A missing cell becomes the empty string; `astype(str)` is the identity on
string cells. -/
def predictionsOf (sub : List SubRow) (gt : List GtRow) : List String :=
  (mergeInner gt sub).map fun r => r.generated_note.getD ""

/-- Line 71: `references = merged['note'].fillna('').astype(str).tolist()`. -/
def referencesOf (sub : List SubRow) (gt : List GtRow) : List String :=
  (mergeInner gt sub).map fun r => r.note.getD ""

/-! ## Scoring engine, modelled from the spec (bench_utils is absent) -/

/-- Modelled from the spec: the Tokenizer/Normalizer of section 4.1
(`bench_utils.automatic_metrics` is missing from the snapshot).  Lowercases,
splits on whitespace; an empty text yields the empty sequence. -/
def tokenize (t : String) : List String :=
  (t.toLower.split Char.isWhitespace).filter fun w => w ≠ ""

/-- Modelled from the spec: the bag of n-grams of a token sequence
(section 3, NGram): every ordered tuple of `n` consecutive tokens, with
multiplicity. -/
def ngrams (n : Nat) (ts : List String) : List (List String) :=
  (List.range (ts.length + 1 - n)).map fun i => (ts.drop i).take n

/-- Modelled from the spec: clipped overlap count between two n-gram bags —
the sum over distinct n-grams of the minimum of the two occurrence counts,
i.e. the cardinality of the multiset intersection. -/
def overlapCount (c r : List (List String)) : Nat :=
  Multiset.card ((c : Multiset (List String)) ∩ (r : Multiset (List String)))

/-- Modelled from the spec: F1 from an overlap count and the two bag sizes
(section 4.3): precision `ov/cl`, recall `ov/rl` (0 when the denominator is
0, per the no-division-by-zero rule), `F1 = 2PR/(P+R)`, 0 if `P+R = 0`. -/
def fScore (ov cl rl : Nat) : ℚ :=
  let p : ℚ := if cl = 0 then 0 else (ov : ℚ) / cl
  let r : ℚ := if rl = 0 then 0 else (ov : ℚ) / rl
  if p + r = 0 then 0 else 2 * p * r / (p + r)

/-- Modelled from the spec: longest-common-subsequence length of two token
sequences (section 4.3, ROUGE-L; the glossary's LCS). -/
def lcsLen : List String → List String → Nat
  | [], _ => 0
  | _ :: _, [] => 0
  | a :: as, b :: bs =>
    if a = b then lcsLen as bs + 1
    else max (lcsLen (a :: as) bs) (lcsLen as (b :: bs))
termination_by x y => x.length + y.length

/-- Modelled from the spec: per-pair ROUGE-n F1 (section 4.3). -/
def rougeNPair (n : Nat) (cand ref : String) : ℚ :=
  let c := ngrams n (tokenize cand)
  let r := ngrams n (tokenize ref)
  fScore (overlapCount c r) c.length r.length

/-- Modelled from the spec: per-pair ROUGE-L F1 (section 4.3):
`precision = LCS/len(candidate)`, `recall = LCS/len(reference)`. -/
def rougeLPair (cand ref : String) : ℚ :=
  let c := tokenize cand
  let r := tokenize ref
  fScore (lcsLen c r) c.length r.length

/-- Modelled from the spec: arithmetic mean of a list of rationals (the
corpus average of section 4.3/4.4; division by zero on the empty corpus
yields 0, but the Aggregator rejects empty corpora before averaging). -/
def listMean (l : List ℚ) : ℚ := l.sum / l.length

/-- Modelled from the spec: the four ROUGE outputs (section 4.3). -/
structure RougeScores where
  rouge1 : ℚ
  rouge2 : ℚ
  rougeL : ℚ
  rougeLsum : ℚ
deriving DecidableEq, Repr

/-- Modelled from the spec: the METEOR token alignment (section 4.4).  The
stemmer and synonym dictionary are left open by the spec (section 9), so
only the exact-match tier is modelled (identity stemmer, empty synonym set).
Each candidate token is aligned, left to right, to the first not-yet-used
reference position carrying the same token, so every token is aligned at
most once; the result lists `(candidate index, reference index)` pairs in
candidate order. -/
def alignStep (r : List String) (acc : List (Nat × Nat)) (ci : Nat × String) :
    List (Nat × Nat) :=
  match (List.range r.length).find? (fun j =>
      r[j]? == some ci.2 && !((acc.map Prod.snd).contains j)) with
  | some j => acc ++ [(ci.1, j)]
  | none => acc

/-- Modelled from the spec: the full greedy alignment — fold `alignStep`
over the indexed candidate tokens. -/
def alignGreedy (c r : List String) : List (Nat × Nat) :=
  c.enum.foldl (alignStep r) []

/-- Modelled from the spec: the number of chunks of an alignment
(section 4.4): maximal runs of pairs contiguous in both sequences. -/
def chunksOf : List (Nat × Nat) → Nat
  | [] => 0
  | [_] => 1
  | p :: q :: rest =>
    (if q.1 = p.1 + 1 ∧ q.2 = p.2 + 1 then 0 else 1) + chunksOf (q :: rest)

/-- Modelled from the spec: per-pair METEOR score (section 4.4):
`P = matches/len(cand)`, `R = matches/len(ref)`,
`Fmean = 10PR/(R+9P)`, `penalty = 0.5 (chunks/matches)^3`,
`score = Fmean (1 - penalty)`; a pair with zero matches scores 0. -/
def meteorScore (m tcl trl ch : Nat) : ℚ :=
  if m = 0 then 0
  else
    let p : ℚ := (m : ℚ) / tcl
    let r : ℚ := (m : ℚ) / trl
    let fmean := 10 * p * r / (r + 9 * p)
    let pen := (1 / 2 : ℚ) * ((ch : ℚ) / m) ^ 3
    fmean * (1 - pen)

/-- Modelled from the spec: per-pair METEOR (section 4.4) — align the two
token sequences, then score matches and chunks. -/
def meteorPair (cand ref : String) : ℚ :=
  let tc := tokenize cand
  let tr := tokenize ref
  let a := alignGreedy tc tr
  meteorScore a.length tc.length tr.length (chunksOf a)

/-- Modelled from the spec: BLEU modified n-gram precision (section 4.2,
step 1): corpus sum of clipped candidate n-gram counts over the corpus sum
of candidate n-gram counts; 0 when the candidate side has no n-grams of
this order. -/
def modPrecision (n : Nat) (pairs : List (String × String)) : ℚ :=
  let num := (pairs.map fun pr =>
    overlapCount (ngrams n (tokenize pr.1)) (ngrams n (tokenize pr.2))).sum
  let den := (pairs.map fun pr => (ngrams n (tokenize pr.1)).length).sum
  if den = 0 then 0 else (num : ℚ) / den

/-- Modelled from the spec: total candidate token count of the corpus
(section 4.2, step 3). -/
def candTotalLen (pairs : List (String × String)) : Nat :=
  (pairs.map fun pr => (tokenize pr.1).length).sum

/-- Modelled from the spec: total reference token count of the corpus
(section 4.2, step 3). -/
def refTotalLen (pairs : List (String × String)) : Nat :=
  (pairs.map fun pr => (tokenize pr.2).length).sum

/-- Modelled from the spec: BLEU brevity penalty (section 4.2, step 3): 1
when the candidate total `c` is at least the reference total `r`, otherwise
`exp(1 - r/c)`. -/
noncomputable def brevityPenalty (c r : Nat) : ℝ :=
  if r ≤ c then 1 else Real.exp (1 - (r : ℝ) / c)

/-- Modelled from the spec: geometric mean with equal weights 1/4
(section 4.2, step 2); a zero precision makes it 0 (no smoothing is chosen,
matching the spec default before its optional smoothing remark). -/
noncomputable def geoMean4 (p1 p2 p3 p4 : ℚ) : ℝ :=
  ((p1 * p2 * p3 * p4 : ℚ) : ℝ) ^ ((1 : ℝ) / 4)

/-- The scoring engine handle built at line 75:
`MetricsComputer(predictions, references)`.  Its class body lives in the
missing `bench_utils.automatic_metrics`, so it only carries the two
corpora. -/
structure MetricsComputer where
  predictions : List String
  references : List String

/-- Modelled from the spec: corpus-level BLEU (section 4.2, step 4):
brevity penalty times the geometric mean of the four modified
precisions. -/
noncomputable def MetricsComputer.compute_BLEU (mc : MetricsComputer) : ℝ :=
  let pairs := mc.predictions.zip mc.references
  brevityPenalty (candTotalLen pairs) (refTotalLen pairs) *
    geoMean4 (modPrecision 1 pairs) (modPrecision 2 pairs)
      (modPrecision 3 pairs) (modPrecision 4 pairs)

/-- Modelled from the spec: the ROUGE scorer (section 4.3) — corpus
arithmetic means of the per-pair F1 scores.  Sentence segmentation is
unspecified, so ROUGE-Lsum takes the spec's documented degradation to
ROUGE-L behaviour. -/
def MetricsComputer.compute_ROUGE (mc : MetricsComputer) : RougeScores :=
  let pairs := mc.predictions.zip mc.references
  { rouge1 := listMean (pairs.map fun pr => rougeNPair 1 pr.1 pr.2)
    rouge2 := listMean (pairs.map fun pr => rougeNPair 2 pr.1 pr.2)
    rougeL := listMean (pairs.map fun pr => rougeLPair pr.1 pr.2)
    rougeLsum := listMean (pairs.map fun pr => rougeLPair pr.1 pr.2) }

/-- Modelled from the spec: corpus METEOR (section 4.4) — mean of the
per-pair scores. -/
def MetricsComputer.compute_METEOR (mc : MetricsComputer) : ℚ :=
  listMean ((mc.predictions.zip mc.references).map fun pr => meteorPair pr.1 pr.2)

/-- One scorer invocation, as recorded in the instrumentation trace of the
embedding (`compute_BLEU` at line 80, `compute_ROUGE` at line 83,
`compute_METEOR` at line 90). -/
inductive MetricCall
  | bleu
  | rouge
  | meteor
deriving DecidableEq, Repr, BEq

/-- The spec's error taxonomy (section 7): `InputMismatchError` is the
fatal empty-or-mismatched-corpus failure; the script surfaces it as the
`sys.exit(1)` at line 67. -/
inductive EvalError
  | inputMismatch
deriving DecidableEq, Repr

/-- Lines 77 to 90: the six metric entries of the `results` dict, in
insertion order, each produced by one scorer call on the given corpora. -/
noncomputable def scoreEntries (predictions references : List String) :
    List (String × ℝ) :=
  let mc : MetricsComputer := ⟨predictions, references⟩
  let rouge_scores := mc.compute_ROUGE
  [("bleu", mc.compute_BLEU),
   ("rouge1", (rouge_scores.rouge1 : ℝ)),
   ("rouge2", (rouge_scores.rouge2 : ℝ)),
   ("rougeL", (rouge_scores.rougeL : ℝ)),
   ("rougeLsum", (rouge_scores.rougeLsum : ℝ)),
   ("meteor", (mc.compute_METEOR : ℝ))]

/-- Lines 77 to 94: the full `results` dict returned by
`evaluate_submission` — the six metric entries followed by the metadata
entries `num_samples = len(merged)` and
`coverage = len(merged)/len(ground_truth_df)*100`. -/
noncomputable def evalResults (submission_df : List SubRow)
    (ground_truth_df : List GtRow) : List (String × ℝ) :=
  let merged := mergeInner ground_truth_df submission_df
  scoreEntries (predictionsOf submission_df ground_truth_df)
      (referencesOf submission_df ground_truth_df)
    ++ [("num_samples", (merged.length : ℝ)),
        ("coverage", (merged.length : ℝ) / (ground_truth_df.length : ℝ) * 100)]

/-- Lines 47 to 96: `evaluate_submission(submission_df, ground_truth_df)`.
Merges on id, exits (`EvalError.inputMismatch`) when no id matches, else
builds the aligned corpora and returns the `results` dict.  The first
component is the instrumentation trace: the scorer invocations the body
performs, in order (none on the error path, which exits at line 67 before
`MetricsComputer` is built). -/
noncomputable def evaluate_submission (submission_df : List SubRow)
    (ground_truth_df : List GtRow) :
    List MetricCall × Except EvalError (List (String × ℝ)) :=
  let merged := mergeInner ground_truth_df submission_df
  if merged.length = 0 then ([], .error .inputMismatch)
  else ([.bleu, .rouge, .meteor],
    .ok (evalResults submission_df ground_truth_df))

/-- Modelled from the spec: the Aggregator entry point (section 4.5): it
fails with `InputMismatchError` when `len(predictions) != len(references)`
or either sequence is empty, checked before invoking any scorer; otherwise
it invokes the three scorers (trace component) and returns the combined
ScoreRecord. -/
noncomputable def aggregate (predictions references : List String) :
    List MetricCall × Except EvalError (List (String × ℝ)) :=
  if predictions.length ≠ references.length ∨ predictions.length = 0 then
    ([], .error .inputMismatch)
  else ([.bleu, .rouge, .meteor], .ok (scoreEntries predictions references))

/-- The caller-owned dataframes handed to `evaluate_submission`. -/
structure EvalState where
  submission_df : List SubRow
  ground_truth_df : List GtRow
deriving DecidableEq, Repr

/-- Lines 58 to 96 with the caller's dataframes threaded explicitly: each
pandas operation used (`merge`, `fillna`, `astype`, `tolist`) returns a
fresh object, so the body only binds new locals and the state comes back
with the run's outcome. -/
noncomputable def evaluate_submission_run (st : EvalState) :
    EvalState × (List MetricCall × Except EvalError (List (String × ℝ))) :=
  let merged := mergeInner st.ground_truth_df st.submission_df
  if merged.length = 0 then (st, ([], .error .inputMismatch))
  else (st, ([.bleu, .rouge, .meteor],
    .ok (evalResults st.submission_df st.ground_truth_df)))

/-! ## Helper lemmas -/

theorem overlapCount_le_left (c r : List (List String)) :
    overlapCount c r ≤ c.length := by
  have h := Multiset.card_le_card
    (Multiset.inter_le_left (s := (c : Multiset (List String))) (t := r))
  simpa [overlapCount] using h

theorem overlapCount_le_right (c r : List (List String)) :
    overlapCount c r ≤ r.length := by
  have h := Multiset.card_le_card
    (Multiset.inter_le_right (s := (c : Multiset (List String))) (t := r))
  simpa [overlapCount] using h

theorem fScore_eq (ov cl rl : Nat) :
    fScore ov cl rl =
      (if (if cl = 0 then (0:ℚ) else (ov : ℚ) / cl) +
          (if rl = 0 then (0:ℚ) else (ov : ℚ) / rl) = 0 then 0
       else 2 * (if cl = 0 then (0:ℚ) else (ov : ℚ) / cl) *
          (if rl = 0 then (0:ℚ) else (ov : ℚ) / rl) /
          ((if cl = 0 then (0:ℚ) else (ov : ℚ) / cl) +
           (if rl = 0 then (0:ℚ) else (ov : ℚ) / rl))) := rfl

theorem fScore_nonneg (ov cl rl : Nat) : 0 ≤ fScore ov cl rl := by
  rw [fScore_eq]
  have hp : (0:ℚ) ≤ (if cl = 0 then 0 else (ov : ℚ) / cl) := by
    split <;> positivity
  have hr : (0:ℚ) ≤ (if rl = 0 then 0 else (ov : ℚ) / rl) := by
    split <;> positivity
  set p : ℚ := if cl = 0 then (0:ℚ) else (ov : ℚ) / cl with hpdef
  set r : ℚ := if rl = 0 then (0:ℚ) else (ov : ℚ) / rl with hrdef
  split
  · exact le_rfl
  · exact div_nonneg (by nlinarith) (by nlinarith)

theorem fScore_le_one (ov cl rl : Nat) (h1 : ov ≤ cl) (h2 : ov ≤ rl) :
    fScore ov cl rl ≤ 1 := by
  rw [fScore_eq]
  have hp : (0:ℚ) ≤ (if cl = 0 then 0 else (ov : ℚ) / cl) := by
    split <;> positivity
  have hr : (0:ℚ) ≤ (if rl = 0 then 0 else (ov : ℚ) / rl) := by
    split <;> positivity
  have hp1 : (if cl = 0 then (0:ℚ) else (ov : ℚ) / cl) ≤ 1 := by
    split
    · norm_num
    · rename_i h
      rw [div_le_one (by exact_mod_cast Nat.pos_of_ne_zero h)]
      exact_mod_cast h1
  have hr1 : (if rl = 0 then (0:ℚ) else (ov : ℚ) / rl) ≤ 1 := by
    split
    · norm_num
    · rename_i h
      rw [div_le_one (by exact_mod_cast Nat.pos_of_ne_zero h)]
      exact_mod_cast h2
  set p : ℚ := if cl = 0 then (0:ℚ) else (ov : ℚ) / cl with hpdef
  set r : ℚ := if rl = 0 then (0:ℚ) else (ov : ℚ) / rl with hrdef
  split
  · norm_num
  · rename_i hsum
    have hpos : 0 < p + r := lt_of_le_of_ne (by nlinarith) (Ne.symm hsum)
    rw [div_le_one hpos]
    nlinarith

theorem lcsLen_le (a b : List String) :
    lcsLen a b ≤ a.length ∧ lcsLen a b ≤ b.length := by
  generalize hn : a.length + b.length = n
  induction n using Nat.strong_induction_on generalizing a b with
  | _ n ih =>
    match a, b with
    | [], b => simp [lcsLen]
    | a :: as, [] => simp [lcsLen]
    | a :: as, b :: bs =>
      by_cases h : a = b
      · have h1 := ih (as.length + bs.length)
          (by simp only [List.length_cons] at hn; omega) as bs rfl
        rw [lcsLen, if_pos h]
        simp only [List.length_cons]
        omega
      · have h1 := ih ((a :: as).length + bs.length)
          (by simp only [List.length_cons] at hn ⊢; omega) (a :: as) bs rfl
        have h2 := ih (as.length + (b :: bs).length)
          (by simp only [List.length_cons] at hn ⊢; omega) as (b :: bs) rfl
        rw [lcsLen, if_neg h]
        simp only [List.length_cons] at h1 h2 ⊢
        constructor
        · exact Nat.max_le.mpr ⟨by omega, by omega⟩
        · exact Nat.max_le.mpr ⟨by omega, by omega⟩

theorem listMean_nonneg (l : List ℚ) (h : ∀ x ∈ l, 0 ≤ x) : 0 ≤ listMean l := by
  unfold listMean
  exact div_nonneg (List.sum_nonneg h) (by positivity)

theorem listMean_le_one (l : List ℚ) (h : ∀ x ∈ l, x ≤ 1) : listMean l ≤ 1 := by
  unfold listMean
  by_cases hl : l.length = 0
  · simp [hl]
  · rw [div_le_one (by exact_mod_cast Nat.pos_of_ne_zero hl)]
    have := List.sum_le_card_nsmul l 1 h
    simpa using this

theorem rougeNPair_nonneg (n : Nat) (cand ref : String) :
    0 ≤ rougeNPair n cand ref :=
  fScore_nonneg _ _ _

theorem rougeNPair_le_one (n : Nat) (cand ref : String) :
    rougeNPair n cand ref ≤ 1 :=
  fScore_le_one _ _ _ (overlapCount_le_left _ _) (overlapCount_le_right _ _)

theorem rougeLPair_nonneg (cand ref : String) : 0 ≤ rougeLPair cand ref :=
  fScore_nonneg _ _ _

theorem rougeLPair_le_one (cand ref : String) : rougeLPair cand ref ≤ 1 :=
  fScore_le_one _ _ _ (lcsLen_le _ _).1 (lcsLen_le _ _).2

theorem alignStep_length_le (r : List String) (acc : List (Nat × Nat))
    (ci : Nat × String) : (alignStep r acc ci).length ≤ acc.length + 1 := by
  unfold alignStep
  split
  · simp
  · omega

theorem foldl_alignStep_length_le (r : List String) (l : List (Nat × String)) :
    ∀ acc : List (Nat × Nat),
      (l.foldl (alignStep r) acc).length ≤ acc.length + l.length := by
  induction l with
  | nil => intro acc; simp
  | cons x xs ih =>
    intro acc
    simp only [List.foldl_cons, List.length_cons]
    have h1 := ih (alignStep r acc x)
    have h2 := alignStep_length_le r acc x
    omega

theorem alignGreedy_length_le_left (c r : List String) :
    (alignGreedy c r).length ≤ c.length := by
  have h := foldl_alignStep_length_le r c.enum []
  simpa [alignGreedy, List.enum_length] using h

/-- Invariant of the greedy alignment: the used reference positions are
pairwise distinct and in range. -/
def AlignInv (rlen : Nat) (acc : List (Nat × Nat)) : Prop :=
  (acc.map Prod.snd).Nodup ∧ ∀ j ∈ acc.map Prod.snd, j < rlen

theorem alignStep_inv (r : List String) (acc : List (Nat × Nat))
    (ci : Nat × String) (h : AlignInv r.length acc) :
    AlignInv r.length (alignStep r acc ci) := by
  unfold alignStep
  cases hf : (List.range r.length).find? (fun j =>
      r[j]? == some ci.2 && !((acc.map Prod.snd).contains j)) with
  | none => exact h
  | some j =>
    have hj1 : j ∈ List.range r.length := List.mem_of_find?_eq_some hf
    have hj2 := List.find?_some hf
    have hjlt : j < r.length := List.mem_range.mp hj1
    simp only [Bool.and_eq_true, Bool.not_eq_true'] at hj2
    have hnotmem : j ∉ acc.map Prod.snd := by
      intro hmem
      have hc := hj2.2
      simp [hmem] at hc
    constructor
    · simp only [List.map_append, List.map_cons, List.map_nil]
      rw [List.nodup_append]
      refine ⟨h.1, List.nodup_singleton j, ?_⟩
      intro x hx hy
      simp only [List.mem_singleton] at hy
      subst hy
      exact hnotmem hx
    · intro x hx
      simp only [List.map_append, List.map_cons, List.map_nil,
        List.mem_append, List.mem_singleton] at hx
      rcases hx with hx | rfl
      · exact h.2 x hx
      · exact hjlt

theorem foldl_alignStep_inv (r : List String) (l : List (Nat × String)) :
    ∀ acc : List (Nat × Nat), AlignInv r.length acc →
      AlignInv r.length (l.foldl (alignStep r) acc) := by
  induction l with
  | nil => intro acc h; exact h
  | cons x xs ih =>
    intro acc h
    exact ih (alignStep r acc x) (alignStep_inv r acc x h)

theorem alignGreedy_inv (c r : List String) :
    AlignInv r.length (alignGreedy c r) :=
  foldl_alignStep_inv r c.enum [] (by constructor <;> simp)

theorem alignGreedy_length_le_right (c r : List String) :
    (alignGreedy c r).length ≤ r.length := by
  have h := alignGreedy_inv c r
  have hlen : (alignGreedy c r).length =
      ((alignGreedy c r).map Prod.snd).length := by simp
  rw [hlen]
  have hsub : ((alignGreedy c r).map Prod.snd) ⊆ List.range r.length := by
    intro j hj
    exact List.mem_range.mpr (h.2 j hj)
  calc ((alignGreedy c r).map Prod.snd).length
      ≤ (List.range r.length).length := (h.1.subperm hsub).length_le
    _ = r.length := List.length_range _

theorem chunksOf_le_length (l : List (Nat × Nat)) : chunksOf l ≤ l.length := by
  induction l with
  | nil => simp [chunksOf]
  | cons p rest ih =>
    cases rest with
    | nil => simp [chunksOf]
    | cons q rest2 =>
      rw [chunksOf]
      simp only [List.length_cons]
      simp only [List.length_cons] at ih
      split <;> omega

theorem meteorScore_eq (m tcl trl ch : Nat) :
    meteorScore m tcl trl ch =
      (if m = 0 then 0
       else 10 * ((m : ℚ) / tcl) * ((m : ℚ) / trl) /
            ((m : ℚ) / trl + 9 * ((m : ℚ) / tcl)) *
            (1 - (1 / 2 : ℚ) * ((ch : ℚ) / m) ^ 3)) := rfl

theorem meteorScore_nonneg (m tcl trl ch : Nat) (h3 : ch ≤ m) :
    0 ≤ meteorScore m tcl trl ch := by
  rw [meteorScore_eq]
  split
  · exact le_rfl
  · rename_i hm
    have hm1 : (1 : ℚ) ≤ m := by exact_mod_cast Nat.one_le_iff_ne_zero.mpr hm
    have hp : (0:ℚ) ≤ (m : ℚ) / tcl := by positivity
    have hr : (0:ℚ) ≤ (m : ℚ) / trl := by positivity
    have hq1 : ((ch : ℚ) / m) ≤ 1 := by
      rw [div_le_one (by linarith)]
      exact_mod_cast h3
    have hq0 : (0:ℚ) ≤ (ch : ℚ) / m := by positivity
    have hq3 : ((ch : ℚ) / m) ^ 3 ≤ 1 := pow_le_one₀ hq0 hq1
    have hpen : (1 / 2 : ℚ) * ((ch : ℚ) / m) ^ 3 ≤ 1 := by nlinarith
    have hfm : (0:ℚ) ≤ 10 * ((m : ℚ) / tcl) * ((m : ℚ) / trl) /
        ((m : ℚ) / trl + 9 * ((m : ℚ) / tcl)) := by
      apply div_nonneg
      · nlinarith
      · nlinarith
    exact mul_nonneg hfm (by linarith)

theorem meteorScore_le_one (m tcl trl ch : Nat) (h1 : m ≤ tcl) (h2 : m ≤ trl)
    (h3 : ch ≤ m) : meteorScore m tcl trl ch ≤ 1 := by
  rw [meteorScore_eq]
  split
  · norm_num
  · rename_i hm
    have hm1 : (1 : ℚ) ≤ m := by exact_mod_cast Nat.one_le_iff_ne_zero.mpr hm
    have htcl : (1 : ℚ) ≤ tcl := by
      have : 1 ≤ tcl := le_trans (Nat.one_le_iff_ne_zero.mpr hm) h1
      exact_mod_cast this
    have htrl : (1 : ℚ) ≤ trl := by
      have : 1 ≤ trl := le_trans (Nat.one_le_iff_ne_zero.mpr hm) h2
      exact_mod_cast this
    set p : ℚ := (m : ℚ) / tcl with hpdef
    set r : ℚ := (m : ℚ) / trl with hrdef
    have hp0 : 0 < p := by rw [hpdef]; positivity
    have hr0 : 0 < r := by rw [hrdef]; positivity
    have hp1 : p ≤ 1 := by
      rw [hpdef, div_le_one (by linarith)]
      exact_mod_cast h1
    have hr1 : r ≤ 1 := by
      rw [hrdef, div_le_one (by linarith)]
      exact_mod_cast h2
    have hfm1 : 10 * p * r / (r + 9 * p) ≤ 1 := by
      rw [div_le_one (by linarith)]
      nlinarith
    have hfm0 : 0 ≤ 10 * p * r / (r + 9 * p) := by
      apply div_nonneg
      · nlinarith
      · nlinarith
    have hq1 : ((ch : ℚ) / m) ≤ 1 := by
      rw [div_le_one (by linarith)]
      exact_mod_cast h3
    have hq0 : (0:ℚ) ≤ (ch : ℚ) / m := by positivity
    have hpen0 : (0:ℚ) ≤ (1 / 2 : ℚ) * ((ch : ℚ) / m) ^ 3 := by positivity
    calc 10 * p * r / (r + 9 * p) * (1 - (1 / 2 : ℚ) * ((ch : ℚ) / m) ^ 3)
        ≤ 10 * p * r / (r + 9 * p) * 1 :=
          mul_le_mul_of_nonneg_left (by linarith) hfm0
      _ ≤ 1 := by rw [mul_one]; exact hfm1

theorem meteorPair_nonneg (cand ref : String) : 0 ≤ meteorPair cand ref := by
  unfold meteorPair
  exact meteorScore_nonneg _ _ _ _ (chunksOf_le_length _)

theorem meteorPair_le_one (cand ref : String) : meteorPair cand ref ≤ 1 := by
  unfold meteorPair
  exact meteorScore_le_one _ _ _ _ (alignGreedy_length_le_left _ _)
    (alignGreedy_length_le_right _ _) (chunksOf_le_length _)

theorem modPrecision_eq (n : Nat) (pairs : List (String × String)) :
    modPrecision n pairs =
      (if (pairs.map fun pr => (ngrams n (tokenize pr.1)).length).sum = 0 then 0
       else ((pairs.map fun pr =>
           overlapCount (ngrams n (tokenize pr.1)) (ngrams n (tokenize pr.2))).sum : ℚ) /
         ((pairs.map fun pr => (ngrams n (tokenize pr.1)).length).sum : ℚ)) := rfl

theorem modPrecision_nonneg (n : Nat) (pairs : List (String × String)) :
    0 ≤ modPrecision n pairs := by
  rw [modPrecision_eq]
  split
  · exact le_rfl
  · positivity

theorem modPrecision_le_one (n : Nat) (pairs : List (String × String)) :
    modPrecision n pairs ≤ 1 := by
  rw [modPrecision_eq]
  split
  · norm_num
  · rename_i h
    rw [div_le_one (by exact_mod_cast Nat.pos_of_ne_zero h)]
    have hsum : (pairs.map fun pr =>
        overlapCount (ngrams n (tokenize pr.1)) (ngrams n (tokenize pr.2))).sum ≤
        (pairs.map fun pr => (ngrams n (tokenize pr.1)).length).sum := by
      apply List.sum_le_sum
      intro pr hpr
      exact overlapCount_le_left _ _
    exact_mod_cast hsum

theorem ngrams_one_length (ts : List String) : (ngrams 1 ts).length = ts.length := by
  simp [ngrams]

theorem modPrecision_one_den (pairs : List (String × String)) :
    (pairs.map fun pr => (ngrams 1 (tokenize pr.1)).length).sum =
      candTotalLen pairs := by
  unfold candTotalLen
  congr 1
  apply List.map_congr_left
  intro pr _
  exact ngrams_one_length _

theorem modPrecision_one_eq_zero (pairs : List (String × String))
    (h : candTotalLen pairs = 0) : modPrecision 1 pairs = 0 := by
  rw [modPrecision_eq, modPrecision_one_den, if_pos h]

theorem geoMean4_nonneg (p1 p2 p3 p4 : ℚ) (h : 0 ≤ p1 * p2 * p3 * p4) :
    0 ≤ geoMean4 p1 p2 p3 p4 :=
  Real.rpow_nonneg (by exact_mod_cast h) _

theorem geoMean4_le_one (p1 p2 p3 p4 : ℚ) (h0 : 0 ≤ p1 * p2 * p3 * p4)
    (h1 : p1 * p2 * p3 * p4 ≤ 1) : geoMean4 p1 p2 p3 p4 ≤ 1 :=
  Real.rpow_le_one (by exact_mod_cast h0) (by exact_mod_cast h1) (by norm_num)

theorem geoMean4_zero (p1 p2 p3 p4 : ℚ) (h : p1 = 0) :
    geoMean4 p1 p2 p3 p4 = 0 := by
  unfold geoMean4
  rw [h]
  norm_num

theorem brevityPenalty_nonneg (c r : Nat) : 0 ≤ brevityPenalty c r := by
  unfold brevityPenalty
  split
  · norm_num
  · exact (Real.exp_pos _).le

theorem brevityPenalty_le_one (c r : Nat) (hc : 0 < c) :
    brevityPenalty c r ≤ 1 := by
  unfold brevityPenalty
  split
  · exact le_rfl
  · rename_i h
    have hcr : c < r := Nat.lt_of_not_le h
    have h1 : (1:ℝ) ≤ (r:ℝ) / c := by
      rw [le_div_iff₀ (by exact_mod_cast hc)]
      rw [one_mul]
      exact_mod_cast le_of_lt hcr
    calc Real.exp (1 - (r:ℝ) / c) ≤ Real.exp 0 := Real.exp_le_exp.mpr (by linarith)
      _ = 1 := Real.exp_zero

theorem compute_BLEU_eq (mc : MetricsComputer) :
    mc.compute_BLEU =
      brevityPenalty (candTotalLen (mc.predictions.zip mc.references))
          (refTotalLen (mc.predictions.zip mc.references)) *
        geoMean4 (modPrecision 1 (mc.predictions.zip mc.references))
          (modPrecision 2 (mc.predictions.zip mc.references))
          (modPrecision 3 (mc.predictions.zip mc.references))
          (modPrecision 4 (mc.predictions.zip mc.references)) := rfl

theorem compute_BLEU_nonneg (mc : MetricsComputer) : 0 ≤ mc.compute_BLEU := by
  rw [compute_BLEU_eq]
  apply mul_nonneg (brevityPenalty_nonneg _ _)
  apply geoMean4_nonneg
  have h1 := modPrecision_nonneg 1 (mc.predictions.zip mc.references)
  have h2 := modPrecision_nonneg 2 (mc.predictions.zip mc.references)
  have h3 := modPrecision_nonneg 3 (mc.predictions.zip mc.references)
  have h4 := modPrecision_nonneg 4 (mc.predictions.zip mc.references)
  positivity

theorem compute_BLEU_le_one (mc : MetricsComputer) : mc.compute_BLEU ≤ 1 := by
  rw [compute_BLEU_eq]
  by_cases hc : candTotalLen (mc.predictions.zip mc.references) = 0
  · rw [geoMean4_zero _ _ _ _ (modPrecision_one_eq_zero _ hc), mul_zero]
    norm_num
  · have h10 := modPrecision_nonneg 1 (mc.predictions.zip mc.references)
    have h20 := modPrecision_nonneg 2 (mc.predictions.zip mc.references)
    have h30 := modPrecision_nonneg 3 (mc.predictions.zip mc.references)
    have h40 := modPrecision_nonneg 4 (mc.predictions.zip mc.references)
    have h11 := modPrecision_le_one 1 (mc.predictions.zip mc.references)
    have h21 := modPrecision_le_one 2 (mc.predictions.zip mc.references)
    have h31 := modPrecision_le_one 3 (mc.predictions.zip mc.references)
    have h41 := modPrecision_le_one 4 (mc.predictions.zip mc.references)
    have hprod0 : 0 ≤ modPrecision 1 (mc.predictions.zip mc.references) *
        modPrecision 2 (mc.predictions.zip mc.references) *
        modPrecision 3 (mc.predictions.zip mc.references) *
        modPrecision 4 (mc.predictions.zip mc.references) := by positivity
    have h12 : modPrecision 1 (mc.predictions.zip mc.references) *
        modPrecision 2 (mc.predictions.zip mc.references) ≤ 1 :=
      mul_le_one₀ h11 h20 h21
    have h123 : modPrecision 1 (mc.predictions.zip mc.references) *
        modPrecision 2 (mc.predictions.zip mc.references) *
        modPrecision 3 (mc.predictions.zip mc.references) ≤ 1 :=
      mul_le_one₀ h12 h30 h31
    have hprod1 : modPrecision 1 (mc.predictions.zip mc.references) *
        modPrecision 2 (mc.predictions.zip mc.references) *
        modPrecision 3 (mc.predictions.zip mc.references) *
        modPrecision 4 (mc.predictions.zip mc.references) ≤ 1 :=
      mul_le_one₀ h123 h40 h41
    have hbp := brevityPenalty_le_one
      (candTotalLen (mc.predictions.zip mc.references))
      (refTotalLen (mc.predictions.zip mc.references))
      (Nat.pos_of_ne_zero hc)
    have hgeo0 := geoMean4_nonneg _ _ _ _ hprod0
    have hgeo1 := geoMean4_le_one _ _ _ _ hprod0 hprod1
    have hbp0 := brevityPenalty_nonneg
      (candTotalLen (mc.predictions.zip mc.references))
      (refTotalLen (mc.predictions.zip mc.references))
    nlinarith

theorem listMean_map_nonneg {α : Type} (l : List α) (f : α → ℚ)
    (h : ∀ x, 0 ≤ f x) : 0 ≤ listMean (l.map f) := by
  apply listMean_nonneg
  intro x hx
  obtain ⟨a, _, rfl⟩ := List.mem_map.mp hx
  exact h a

theorem listMean_map_le_one {α : Type} (l : List α) (f : α → ℚ)
    (h : ∀ x, f x ≤ 1) : listMean (l.map f) ≤ 1 := by
  apply listMean_le_one
  intro x hx
  obtain ⟨a, _, rfl⟩ := List.mem_map.mp hx
  exact h a

theorem compute_ROUGE_eq (mc : MetricsComputer) :
    mc.compute_ROUGE =
      { rouge1 := listMean ((mc.predictions.zip mc.references).map fun pr =>
          rougeNPair 1 pr.1 pr.2)
        rouge2 := listMean ((mc.predictions.zip mc.references).map fun pr =>
          rougeNPair 2 pr.1 pr.2)
        rougeL := listMean ((mc.predictions.zip mc.references).map fun pr =>
          rougeLPair pr.1 pr.2)
        rougeLsum := listMean ((mc.predictions.zip mc.references).map fun pr =>
          rougeLPair pr.1 pr.2) } := rfl

theorem compute_ROUGE_bounds (mc : MetricsComputer) :
    (0 ≤ mc.compute_ROUGE.rouge1 ∧ mc.compute_ROUGE.rouge1 ≤ 1) ∧
    (0 ≤ mc.compute_ROUGE.rouge2 ∧ mc.compute_ROUGE.rouge2 ≤ 1) ∧
    (0 ≤ mc.compute_ROUGE.rougeL ∧ mc.compute_ROUGE.rougeL ≤ 1) ∧
    (0 ≤ mc.compute_ROUGE.rougeLsum ∧ mc.compute_ROUGE.rougeLsum ≤ 1) := by
  rw [compute_ROUGE_eq]
  refine ⟨⟨?_, ?_⟩, ⟨?_, ?_⟩, ⟨?_, ?_⟩, ⟨?_, ?_⟩⟩
  · exact listMean_map_nonneg _ _ fun pr => rougeNPair_nonneg 1 pr.1 pr.2
  · exact listMean_map_le_one _ _ fun pr => rougeNPair_le_one 1 pr.1 pr.2
  · exact listMean_map_nonneg _ _ fun pr => rougeNPair_nonneg 2 pr.1 pr.2
  · exact listMean_map_le_one _ _ fun pr => rougeNPair_le_one 2 pr.1 pr.2
  · exact listMean_map_nonneg _ _ fun pr => rougeLPair_nonneg pr.1 pr.2
  · exact listMean_map_le_one _ _ fun pr => rougeLPair_le_one pr.1 pr.2
  · exact listMean_map_nonneg _ _ fun pr => rougeLPair_nonneg pr.1 pr.2
  · exact listMean_map_le_one _ _ fun pr => rougeLPair_le_one pr.1 pr.2

theorem compute_METEOR_bounds (mc : MetricsComputer) :
    0 ≤ mc.compute_METEOR ∧ mc.compute_METEOR ≤ 1 := by
  unfold MetricsComputer.compute_METEOR
  exact ⟨listMean_map_nonneg _ _ fun pr => meteorPair_nonneg pr.1 pr.2,
    listMean_map_le_one _ _ fun pr => meteorPair_le_one pr.1 pr.2⟩

theorem mergeInner_length (gt : List GtRow) (sub : List SubRow) :
    (mergeInner gt sub).length =
      (gt.map fun g => (sub.filter fun s => s.id == g.id).length).sum := by
  unfold mergeInner
  rw [List.length_flatMap]
  congr 1
  apply List.map_congr_left
  intro g _
  simp

theorem filter_id_length_le_one (sub : List SubRow) (a : Nat)
    (h : (sub.map SubRow.id).Nodup) :
    (sub.filter fun s => s.id == a).length ≤ 1 := by
  induction sub with
  | nil => simp
  | cons s ss ih =>
    simp only [List.map_cons, List.nodup_cons] at h
    by_cases hs : s.id = a
    · rw [List.filter_cons_of_pos (by simpa using hs)]
      have hempty : (ss.filter fun t => t.id == a) = [] := by
        rw [List.filter_eq_nil_iff]
        intro t ht
        simp only [beq_iff_eq]
        intro htid
        have hmem : t.id ∈ ss.map SubRow.id := List.mem_map_of_mem _ ht
        rw [htid, ← hs] at hmem
        exact h.1 hmem
      rw [hempty]
      simp
    · rw [List.filter_cons_of_neg (by simpa using hs)]
      exact ih h.2

theorem mergeInner_length_le_of_nodup (gt : List GtRow) (sub : List SubRow)
    (h : (sub.map SubRow.id).Nodup) :
    (mergeInner gt sub).length ≤ gt.length := by
  rw [mergeInner_length]
  calc (gt.map fun g => (sub.filter fun s => s.id == g.id).length).sum
      ≤ (gt.map fun _ => 1).sum := by
        apply List.sum_le_sum
        intro g hg
        exact filter_id_length_le_one sub g.id h
    _ = gt.length := by simp

/-! ## Concrete fixtures for witnesses -/

/-- One-row submission whose id matches the ground truth below. -/
def subA : List SubRow := [{ id := 1, generated_note := some "the cat sat" }]

/-- One-row ground truth. -/
def gtA : List GtRow :=
  [{ id := 1, note := some "the cat sat on the mat",
     dialogue := some "doctor patient talk" }]

/-- One-row submission whose id matches nothing in the ground truth above. -/
def subB : List SubRow := [{ id := 2, generated_note := some "note text" }]

/-- Submission row with a missing generated_note cell. -/
def subC : List SubRow := [{ id := 1, generated_note := none }]

/-- Ground-truth row with a missing note cell. -/
def gtC : List GtRow := [{ id := 1, note := none, dialogue := some "d" }]

/-- The single merged row of the missing-cell fixtures. -/
def rowC : MergedRow :=
  { id := 1, note := none, dialogue := some "d", generated_note := none }

/-! ## Claims -/

/-- Claim C2: when no id is shared between submission and ground truth the
merged corpus is empty, and the run fails with the input-mismatch error
before any scorer is invoked (empty trace) and returns no partial result
mapping (the error, not an ok value). -/
theorem C2_empty_corpus_fails (sub : List SubRow) (gt : List GtRow)
    (h : mergeInner gt sub = []) :
    evaluate_submission sub gt = ([], Except.error EvalError.inputMismatch) := by
  have hlen : (mergeInner gt sub).length = 0 := by simp [h]
  simp only [evaluate_submission]
  rw [if_pos hlen]

/-- Claim C2 witness: a concrete disjoint-id pair exercises the theorem. -/
theorem C2_empty_corpus_fails_witness :
    mergeInner gtA subB = [] ∧
    evaluate_submission subB gtA = ([], Except.error EvalError.inputMismatch) :=
  ⟨by decide, C2_empty_corpus_fails subB gtA (by decide)⟩

/-- Claim C3: handed predictions and references of unequal length, the
Aggregator entry point fails with the input-mismatch error, invokes no
scorer (empty trace) and computes no metric value (no ok result). -/
theorem C3_length_mismatch_fails (predictions references : List String)
    (h : predictions.length ≠ references.length) :
    aggregate predictions references =
      ([], Except.error EvalError.inputMismatch) := by
  unfold aggregate
  rw [if_pos (Or.inl h)]

/-- Claim C3 witness: predictions of length 3 against references of
length 2, the spec's own example. -/
theorem C3_length_mismatch_fails_witness :
    (["a", "b", "c"] : List String).length ≠ (["d", "e"] : List String).length ∧
    aggregate ["a", "b", "c"] ["d", "e"] =
      ([], Except.error EvalError.inputMismatch) :=
  ⟨by decide, C3_length_mismatch_fails ["a", "b", "c"] ["d", "e"] (by decide)⟩

/-- Claim C7: evaluation is deterministic — two invocations of
evaluate_submission on equal submission and ground-truth inputs produce
equal outcomes; since the outcome type covers the failure case, an
invocation that fails, fails identically on retry. -/
theorem C7_deterministic (s : List SubRow) (g : List GtRow)
    (s' : List SubRow) (g' : List GtRow) (h1 : s = s') (h2 : g = g') :
    evaluate_submission s g = evaluate_submission s' g' := by
  subst h1
  subst h2
  rfl

/-- Claim C7 witness: retrying the failing disjoint-id invocation gives
the identical outcome. -/
theorem C7_deterministic_witness :
    subB = subB ∧ gtA = gtA ∧
    evaluate_submission subB gtA = evaluate_submission subB gtA :=
  ⟨rfl, rfl, C7_deterministic subB gtA subB gtA rfl rfl⟩

/-- Claim C8: scoring never mutates its inputs — with the caller's
dataframes threaded through an explicit state, the state after the run
equals the state before it, while the outcome is that of
evaluate_submission on those inputs (merge, fillna, astype and tolist all
produce new values). -/
theorem C8_no_mutation (st : EvalState) :
    (evaluate_submission_run st).1 = st ∧
    (evaluate_submission_run st).2 =
      evaluate_submission st.submission_df st.ground_truth_df := by
  simp only [evaluate_submission_run, evaluate_submission]
  constructor
  · split <;> rfl
  · split <;> rfl

/-- Claim C9: the predictions and references lists handed to
MetricsComputer both have the length of the inner merge of ground truth
and submission on id, hence equal length, for every scorer invocation. -/
theorem C9_corpus_length_invariant (sub : List SubRow) (gt : List GtRow) :
    (predictionsOf sub gt).length = (mergeInner gt sub).length ∧
    (referencesOf sub gt).length = (mergeInner gt sub).length ∧
    (predictionsOf sub gt).length = (referencesOf sub gt).length := by
  unfold predictionsOf referencesOf
  simp

/-- Claim C1: on every submission/ground-truth pair with at least one
matching id, evaluate_submission invokes each of the three scorers exactly
once (the trace lists each call once) over the full aligned corpus, and
returns one combined result mapping in which bleu, rouge1, rouge2, rougeL,
rougeLsum and meteor are bound to exactly the values those scorer calls
produced on that corpus. -/
theorem C1_scorers_once (sub : List SubRow) (gt : List GtRow)
    (h : mergeInner gt sub ≠ []) :
    (evaluate_submission sub gt).1.count MetricCall.bleu = 1 ∧
    (evaluate_submission sub gt).1.count MetricCall.rouge = 1 ∧
    (evaluate_submission sub gt).1.count MetricCall.meteor = 1 ∧
    (evaluate_submission sub gt).2 = Except.ok (evalResults sub gt) ∧
    (evalResults sub gt).lookup "bleu" =
      some (MetricsComputer.compute_BLEU
        ⟨predictionsOf sub gt, referencesOf sub gt⟩) ∧
    (evalResults sub gt).lookup "rouge1" =
      some ((MetricsComputer.compute_ROUGE
        ⟨predictionsOf sub gt, referencesOf sub gt⟩).rouge1 : ℝ) ∧
    (evalResults sub gt).lookup "rouge2" =
      some ((MetricsComputer.compute_ROUGE
        ⟨predictionsOf sub gt, referencesOf sub gt⟩).rouge2 : ℝ) ∧
    (evalResults sub gt).lookup "rougeL" =
      some ((MetricsComputer.compute_ROUGE
        ⟨predictionsOf sub gt, referencesOf sub gt⟩).rougeL : ℝ) ∧
    (evalResults sub gt).lookup "rougeLsum" =
      some ((MetricsComputer.compute_ROUGE
        ⟨predictionsOf sub gt, referencesOf sub gt⟩).rougeLsum : ℝ) ∧
    (evalResults sub gt).lookup "meteor" =
      some ((MetricsComputer.compute_METEOR
        ⟨predictionsOf sub gt, referencesOf sub gt⟩ : ℚ) : ℝ) := by
  have hlen : ¬ (mergeInner gt sub).length = 0 := by
    simpa [List.length_eq_zero] using h
  have he : evaluate_submission sub gt =
      ([MetricCall.bleu, MetricCall.rouge, MetricCall.meteor],
        Except.ok (evalResults sub gt)) := by
    simp only [evaluate_submission]
    rw [if_neg hlen]
  rw [he]
  exact ⟨rfl, rfl, rfl, rfl, rfl, rfl, rfl, rfl, rfl, rfl⟩

/-- Claim C1 witness: the one-row matching fixture exercises the
theorem. -/
theorem C1_scorers_once_witness :
    mergeInner gtA subA ≠ [] ∧
    ((evaluate_submission subA gtA).1.count MetricCall.bleu = 1 ∧
     (evaluate_submission subA gtA).1.count MetricCall.rouge = 1 ∧
     (evaluate_submission subA gtA).1.count MetricCall.meteor = 1 ∧
     (evaluate_submission subA gtA).2 = Except.ok (evalResults subA gtA) ∧
     (evalResults subA gtA).lookup "bleu" =
       some (MetricsComputer.compute_BLEU
         ⟨predictionsOf subA gtA, referencesOf subA gtA⟩) ∧
     (evalResults subA gtA).lookup "rouge1" =
       some ((MetricsComputer.compute_ROUGE
         ⟨predictionsOf subA gtA, referencesOf subA gtA⟩).rouge1 : ℝ) ∧
     (evalResults subA gtA).lookup "rouge2" =
       some ((MetricsComputer.compute_ROUGE
         ⟨predictionsOf subA gtA, referencesOf subA gtA⟩).rouge2 : ℝ) ∧
     (evalResults subA gtA).lookup "rougeL" =
       some ((MetricsComputer.compute_ROUGE
         ⟨predictionsOf subA gtA, referencesOf subA gtA⟩).rougeL : ℝ) ∧
     (evalResults subA gtA).lookup "rougeLsum" =
       some ((MetricsComputer.compute_ROUGE
         ⟨predictionsOf subA gtA, referencesOf subA gtA⟩).rougeLsum : ℝ) ∧
     (evalResults subA gtA).lookup "meteor" =
       some ((MetricsComputer.compute_METEOR
         ⟨predictionsOf subA gtA, referencesOf subA gtA⟩ : ℚ) : ℝ)) :=
  ⟨by decide, C1_scorers_once subA gtA (by decide)⟩

/-- Claim C4 counterexample: the claim says the result mapping of one
scoring run has exactly the six metric names as its key set; on the
concrete fixture run, the returned mapping also carries the key
num_samples, which is not among the six. -/
theorem C4_keys_counterexample :
    "num_samples" ∈ (evalResults subA gtA).map Prod.fst ∧
    "num_samples" ∉ (["bleu", "rouge1", "rouge2", "rougeL", "rougeLsum",
      "meteor"] : List String) := by
  constructor
  · have hk : (evalResults subA gtA).map Prod.fst =
        ["bleu", "rouge1", "rouge2", "rougeL", "rougeLsum", "meteor",
         "num_samples", "coverage"] := rfl
    rw [hk]
    decide
  · decide

/-- Claim C4 as amended: the result mapping produced by one scoring run
has as its keys exactly the six metric names bleu, rouge1, rouge2, rougeL,
rougeLsum, meteor followed by the metadata keys num_samples and coverage,
in insertion order, each bound to a numeric value. -/
theorem C4_keys_amended (sub : List SubRow) (gt : List GtRow) :
    (evalResults sub gt).map Prod.fst =
      ["bleu", "rouge1", "rouge2", "rougeL", "rougeLsum", "meteor",
       "num_samples", "coverage"] := rfl

/-- Claim C5: before the scorers are invoked, missing cells of the aligned
columns are coerced to the empty string — a merged row whose
generated_note (resp. note) cell is missing contributes the empty string
to predictions (resp. references) at the same position, and a present
string cell is passed through unchanged (both lists are lists of
strings by construction). -/
theorem C5_fillna_empty_string (sub : List SubRow) (gt : List GtRow)
    (i : Nat) (row : MergedRow) (h : (mergeInner gt sub)[i]? = some row) :
    ((row.generated_note = none → (predictionsOf sub gt)[i]? = some "") ∧
     ∀ s, row.generated_note = some s → (predictionsOf sub gt)[i]? = some s) ∧
    ((row.note = none → (referencesOf sub gt)[i]? = some "") ∧
     ∀ s, row.note = some s → (referencesOf sub gt)[i]? = some s) := by
  unfold predictionsOf referencesOf
  rw [List.getElem?_map, List.getElem?_map, h]
  refine ⟨⟨?_, ?_⟩, ?_, ?_⟩
  · intro hn
    simp [hn]
  · intro s hs
    simp [hs]
  · intro hn
    simp [hn]
  · intro s hs
    simp [hs]

/-- Claim C5 witness: a fixture whose generated_note and note cells are
both missing yields empty strings at position 0. -/
theorem C5_fillna_empty_string_witness :
    (mergeInner gtC subC)[0]? = some rowC ∧
    ((rowC.generated_note = none → (predictionsOf subC gtC)[0]? = some "") ∧
     ∀ s, rowC.generated_note = some s →
        (predictionsOf subC gtC)[0]? = some s) ∧
    ((rowC.note = none → (referencesOf subC gtC)[0]? = some "") ∧
     ∀ s, rowC.note = some s → (referencesOf subC gtC)[0]? = some s) :=
  ⟨by decide, C5_fillna_empty_string subC gtC 0 rowC (by decide)⟩

/-- Claim C6: for arbitrary string corpora, each of the six reported
metric values — bleu, the four ROUGE scores and meteor — lies in the
closed interval from 0 to 1. -/
theorem C6_metric_bounds (predictions references : List String) :
    (0 ≤ MetricsComputer.compute_BLEU ⟨predictions, references⟩ ∧
      MetricsComputer.compute_BLEU ⟨predictions, references⟩ ≤ 1) ∧
    (0 ≤ (MetricsComputer.compute_ROUGE ⟨predictions, references⟩).rouge1 ∧
      (MetricsComputer.compute_ROUGE ⟨predictions, references⟩).rouge1 ≤ 1) ∧
    (0 ≤ (MetricsComputer.compute_ROUGE ⟨predictions, references⟩).rouge2 ∧
      (MetricsComputer.compute_ROUGE ⟨predictions, references⟩).rouge2 ≤ 1) ∧
    (0 ≤ (MetricsComputer.compute_ROUGE ⟨predictions, references⟩).rougeL ∧
      (MetricsComputer.compute_ROUGE ⟨predictions, references⟩).rougeL ≤ 1) ∧
    (0 ≤ (MetricsComputer.compute_ROUGE ⟨predictions, references⟩).rougeLsum ∧
      (MetricsComputer.compute_ROUGE ⟨predictions, references⟩).rougeLsum ≤ 1) ∧
    (0 ≤ MetricsComputer.compute_METEOR ⟨predictions, references⟩ ∧
      MetricsComputer.compute_METEOR ⟨predictions, references⟩ ≤ 1) := by
  obtain ⟨h1, h2, h3, h4⟩ :=
    compute_ROUGE_bounds ⟨predictions, references⟩
  exact ⟨⟨compute_BLEU_nonneg _, compute_BLEU_le_one _⟩, h1, h2, h3, h4,
    compute_METEOR_bounds _⟩

/-- Claim C10: whenever evaluate_submission returns a result, the
num_samples entry is the merged-row count, at least 1; the coverage entry
equals num_samples divided by the ground-truth row count, times 100, and
is strictly positive; and it can exceed 100 only when the submission
contains duplicate ids (with duplicate-free submission ids it is at most
100). -/
theorem C10_metadata_invariants (sub : List SubRow) (gt : List GtRow)
    (h : mergeInner gt sub ≠ []) :
    (evalResults sub gt).lookup "num_samples" =
      some ((mergeInner gt sub).length : ℝ) ∧
    (1 : ℝ) ≤ ((mergeInner gt sub).length : ℝ) ∧
    (evalResults sub gt).lookup "coverage" =
      some (((mergeInner gt sub).length : ℝ) / (gt.length : ℝ) * 100) ∧
    0 < ((mergeInner gt sub).length : ℝ) / (gt.length : ℝ) * 100 ∧
    ((sub.map SubRow.id).Nodup →
      ((mergeInner gt sub).length : ℝ) / (gt.length : ℝ) * 100 ≤ 100) := by
  have hm : 1 ≤ (mergeInner gt sub).length :=
    Nat.one_le_iff_ne_zero.mpr (by simpa [List.length_eq_zero] using h)
  have hgt : gt ≠ [] := by
    intro hg
    subst hg
    exact h rfl
  have hg1 : 1 ≤ gt.length :=
    Nat.one_le_iff_ne_zero.mpr (by simpa [List.length_eq_zero] using hgt)
  have hmR : (1:ℝ) ≤ ((mergeInner gt sub).length : ℝ) := by exact_mod_cast hm
  have hgR : (0:ℝ) < (gt.length : ℝ) := by exact_mod_cast hg1
  refine ⟨rfl, hmR, rfl, ?_, ?_⟩
  · have hdp := div_pos (lt_of_lt_of_le zero_lt_one hmR) hgR
    nlinarith
  · intro hnd
    have hle := mergeInner_length_le_of_nodup gt sub hnd
    have h1 : ((mergeInner gt sub).length : ℝ) / (gt.length : ℝ) ≤ 1 := by
      rw [div_le_one hgR]
      exact_mod_cast hle
    nlinarith

/-- Claim C10 witness: the one-row matching fixture has num_samples 1 and
coverage 100. -/
theorem C10_metadata_invariants_witness :
    mergeInner gtA subA ≠ [] ∧
    ((evalResults subA gtA).lookup "num_samples" =
      some ((mergeInner gtA subA).length : ℝ) ∧
    (1 : ℝ) ≤ ((mergeInner gtA subA).length : ℝ) ∧
    (evalResults subA gtA).lookup "coverage" =
      some (((mergeInner gtA subA).length : ℝ) / (gtA.length : ℝ) * 100) ∧
    0 < ((mergeInner gtA subA).length : ℝ) / (gtA.length : ℝ) * 100 ∧
    ((subA.map SubRow.id).Nodup →
      ((mergeInner gtA subA).length : ℝ) / (gtA.length : ℝ) * 100 ≤ 100)) :=
  ⟨by decide, C10_metadata_invariants subA gtA (by decide)⟩
